import Mathlib

set_option maxRecDepth 2048

/-!
Verification of the sql terminal client (azvaliev/sql): a shallow embedding
of the DSN builder, connection manager, statement transformer, query
executor and result formatter, together with proofs of the specified
properties. Go strings are modelled as Lean String values; Go maps as
association lists (insertion-ordered, overwrite on duplicate key); Go
multiple return values as pairs; fallible Go functions as Except; Go
runtime panics (nil-pointer dereference) as an explicit Outcome type.
-/

/-- Model of unicode.IsSpace from the Go standard library: the Unicode
White_Space code points, which strings.TrimSpace trims. In the Latin-1
range these are space, tab, newline, vertical tab, form feed, carriage
return, NEL and NBSP; beyond it the Ogham space mark, the en-quad through
hair-space block, the line and paragraph separators, the narrow no-break
space, the medium mathematical space and the ideographic space. -/
def goIsSpace (c : Char) : Bool :=
  c = ' ' || c = '\t' || c = '\n' || c.toNat = 11 || c.toNat = 12 ||
  c = '\r' || c.toNat = 133 || c.toNat = 160 || c.toNat = 0x1680 ||
  (0x2000 ≤ c.toNat && c.toNat ≤ 0x200A) || c.toNat = 0x2028 ||
  c.toNat = 0x2029 || c.toNat = 0x202F || c.toNat = 0x205F || c.toNat = 0x3000

/-- Model of strings.TrimSpace: drop leading and trailing whitespace. -/
def trimSpace (s : String) : String :=
  String.mk (((s.data.dropWhile goIsSpace).reverse.dropWhile goIsSpace).reverse)

/-- ASCII upper-casing of a single character, the action of strings.ToUpper
on the ASCII inputs considered here. -/
def asciiUpper (c : Char) : Char :=
  if 'a' ≤ c && c ≤ 'z' then Char.ofNat (c.toNat - 32) else c

/-- A word character in the sense of the regexp class backslash-w:
ASCII letters, digits and underscore. -/
def isWordChar (c : Char) : Bool :=
  c.isAlphanum || c = '_'

/-- Model of strings.Join: empty for the empty list, otherwise the elements
separated by sep. -/
def stringsJoin (sep : String) : List String → String
  | [] => ""
  | [s] => s
  | s :: t :: rest => s ++ sep ++ stringsJoin sep (t :: rest)

/-- Concatenation of a list of strings (the accumulation performed by a
strings.Builder loop). -/
def concatStrings : List String → String
  | [] => ""
  | s :: rest => s ++ concatStrings rest

/-- p occurs as a contiguous substring of s. -/
def IsSubstr (p s : String) : Prop :=
  p.data <:+: s.data

/-- Go map assignment m[k] = v on an association-list model: overwrite the
existing entry for k, or append a new one. -/
def mapInsert {β : Type} (m : List (String × β)) (k : String) (v : β) :
    List (String × β) :=
  match m with
  | [] => [(k, v)]
  | (k1, v1) :: rest =>
    if k1 = k then (k, v) :: rest else (k1, v1) :: mapInsert rest k v

/-- Go map read m[k] on the association-list model (None when absent). -/
def mapLookup {β : Type} (m : List (String × β)) (k : String) : Option β :=
  match m with
  | [] => none
  | (k1, v1) :: rest => if k1 = k then some v1 else mapLookup rest k

/-- UTF-8 encoding of a code point, as a list of byte values. -/
def utf8Bytes (n : Nat) : List Nat :=
  if n < 128 then [n]
  else if n < 2048 then [192 + n / 64, 128 + n % 64]
  else if n < 65536 then [224 + n / 4096, 128 + (n / 64) % 64, 128 + n % 64]
  else [240 + n / 262144, 128 + (n / 4096) % 64, 128 + (n / 64) % 64, 128 + n % 64]

/-- Bytes that net/url leaves unescaped in a query component: ASCII
alphanumerics and the marks dash, dot, underscore, tilde. -/
def isUnreservedByte (b : Nat) : Bool :=
  (65 ≤ b && b ≤ 90) || (97 ≤ b && b ≤ 122) || (48 ≤ b && b ≤ 57) ||
  b = 45 || b = 46 || b = 95 || b = 126

/-- Upper-case hexadecimal digit, as used by net/url percent-escapes. -/
def hexDigitUpper (n : Nat) : Char :=
  "0123456789ABCDEF".data.getD n '0'

/-- Lower-case hexadecimal digit, as used by encoding/json unicode
escapes. -/
def hexDigitLower (n : Nat) : Char :=
  "0123456789abcdef".data.getD n '0'

/-- Escape a single byte the way url.QueryEscape does: space becomes plus,
unreserved bytes stand for themselves, everything else is percent-escaped. -/
def escapeByte (b : Nat) : List Char :=
  if b = 32 then ['+']
  else if isUnreservedByte b then [Char.ofNat b]
  else ['%', hexDigitUpper (b / 16), hexDigitUpper (b % 16)]

/-- Model of url.QueryEscape from net/url: escape every byte of the UTF-8
encoding of the string. -/
def queryEscape (s : String) : String :=
  String.mk (((s.data.map (fun c => utf8Bytes c.toNat)).flatten.map escapeByte).flatten)

namespace Conn

/-- DBFlavor is a string type in the source (package conn), with the two
named constants below; any other string is an unknown flavor. -/
abbrev DBFlavor := String

/-- The MySQL flavor constant (driver name mysql). -/
def MySQL : DBFlavor := "mysql"

/-- The PostgreSQL flavor constant (driver name pgx). -/
def PostgreSQL : DBFlavor := "pgx"

/-- DSNOptions from the conn package: connection options for either flavor.
AdditionalOptions models the Go map as an insertion-ordered association
list. -/
structure DSNOptions where
  Flavor : DBFlavor
  Host : String := ""
  DatabaseName : String := ""
  User : String := ""
  Password : String := ""
  Port : Nat := 0
  SafeMode : Bool := false
  AdditionalOptions : List (String × String) := []
deriving DecidableEq

/-- DSNOptions.additionalOptionsToQueryParts: none models the nil slice
returned for a nil or empty map; otherwise each entry k, v becomes
k=queryEscape(v), an empty value being first replaced by the
flavor-specific true token (true for MySQL, 1 for PostgreSQL, with true as
the switch default). -/
def additionalOptionsToQueryParts (o : DSNOptions) : Option (List String) :=
  if o.AdditionalOptions.isEmpty then none
  else some (o.AdditionalOptions.map (fun kv =>
    if kv.2 = "" then
      kv.1 ++ "=" ++ queryEscape
        (if o.Flavor = MySQL then "true"
         else if o.Flavor = PostgreSQL then "1" else "true")
    else
      kv.1 ++ "=" ++ queryEscape kv.2))

/-- DSNOptions.additionalOptionsToString: the MySQL query-string suffix. -/
def additionalOptionsToString (o : DSNOptions) : String :=
  match additionalOptionsToQueryParts o with
  | none => ""
  | some ps => "?" ++ stringsJoin "&" ps

/-- DSNOptions.getNetwork: empty host gives no network, a host starting
with an at-sign or slash is a unix socket, anything else is tcp. -/
def getNetwork (o : DSNOptions) : String :=
  if o.Host = "" then ""
  else
    match o.Host.data.head? with
    | some c => if c = '@' || c = '/' then "unix" else "tcp"
    | none => ""

/-- Model of Config.FormatDSN from go-sql-driver/mysql for a config built
by mysql.NewConfig with only User, Passwd, Net, Addr and DBName set (the
defaults emit no query parameters): user:password@net(addr)/dbname with
empty segments omitted. -/
def mysqlFormatDSN (user passwd net addr dbName : String) : String :=
  (if user ≠ "" then
    user ++ (if passwd ≠ "" then ":" ++ passwd else "") ++ "@"
   else "") ++
  (if net ≠ "" then
    net ++ (if addr ≠ "" then "(" ++ addr ++ ")" else "")
   else "") ++
  "/" ++ dbName

/-- DSNOptions.GetDSN. For MySQL: format the base DSN and append the
query-escaped additional options after a question mark. For PostgreSQL:
space-separated key=value pairs for the non-empty core options followed by
the additional option parts. The Go map holding the PostgreSQL core
options iterates in unspecified order; it is modelled in insertion order,
which the containment properties proved below do not depend on. -/
def GetDSN (o : DSNOptions) : Except String String :=
  if o.Flavor = MySQL then
    let network := getNetwork o
    let addr := o.Host ++
      (if o.Port ≠ 0 && network = "tcp" then ":" ++ toString o.Port else "")
    .ok (mysqlFormatDSN o.User o.Password network addr o.DatabaseName ++
      additionalOptionsToString o)
  else if o.Flavor = PostgreSQL then
    let options : List (String × String) :=
      [("host", o.Host)] ++
      (if o.Port ≠ 0 then [("port", toString o.Port)] else []) ++
      [("dbname", o.DatabaseName), ("user", o.User), ("password", o.Password)]
    let outputParts :=
      (options.filter (fun kv => kv.2 ≠ "")).map (fun kv => kv.1 ++ "=" ++ kv.2)
    let allParts :=
      match additionalOptionsToQueryParts o with
      | none => outputParts
      | some ps => outputParts ++ ps
    .ok (stringsJoin " " allParts)
  else
    .error ("Unknown database type " ++ o.Flavor)

end Conn

namespace Stmt

/-- Case-insensitive match of a literal pattern against the front of the
input (the action of a regexp literal under the i flag); returns the rest
of the input after the literal, or none on mismatch. -/
def matchLitCI : List Char → List Char → Option (List Char)
  | [], input => some input
  | _ :: _, [] => none
  | l :: ls, c :: cs =>
    if asciiUpper c = asciiUpper l then matchLitCI ls cs else none

/-- Deterministic matcher for the regexp tail quote? (word+) quote?
semicolon? end-of-text, returning the captured word. Backtracking cannot
produce a match the maximal-munch strategy misses: a shorter word capture
leaves a word character where only a quote, a semicolon or the end of the
text is allowed. -/
def matchNameTail (cs : List Char) : Option String :=
  let cs1 := if cs.head? = some '"' then cs.tail else cs
  let w := cs1.takeWhile isWordChar
  let rest := cs1.dropWhile isWordChar
  if w.isEmpty then none
  else
    let rest2 := if rest.head? = some '"' then rest.tail else rest
    let rest3 := if rest2.head? = some ';' then rest2.tail else rest2
    if rest3.isEmpty then some (String.mk w) else none

/-- statementIsDescribe: match the trimmed statement against the
case-insensitive anchored regexp DESCRIBE quote? (word+) quote?
semicolon?, returning the captured table name. -/
def statementIsDescribe (statement : String) : Option String :=
  match matchLitCI "DESCRIBE ".data (trimSpace statement).data with
  | none => none
  | some rest => matchNameTail rest

/-- statementIsShowIndexes: match the trimmed statement against the
case-insensitive anchored regexp SHOW INDEXES FROM quote? (word+) quote?
semicolon?, returning the captured table name. -/
def statementIsShowIndexes (statement : String) : Option String :=
  match matchLitCI "SHOW INDEXES FROM ".data (trimSpace statement).data with
  | none => none
  | some rest => matchNameTail rest

/-- statementIsShowTables: upper-case the trimmed statement, delete every
semicolon, and compare with SHOW TABLES. -/
def statementIsShowTables (statement : String) : Bool :=
  String.mk (((trimSpace statement).data.map asciiUpper).filter (fun c => c ≠ ';'))
    = "SHOW TABLES"

/-- StatementWithParams: the SQL text to execute plus its positional
parameters (every parameter in this program is a table-name string). -/
structure StatementWithParams where
  statement : String
  params : List String
deriving DecidableEq

/-- The errors the transformer can produce, one constructor per
errors.New / fmt.Errorf site. -/
inductive GoErr
  | connFailed
  | tableDoesNotExist (t : String)
  | notSupported (command : String) (flavor : String)
deriving DecidableEq

/-- The environment a transform runs against: the configured flavor,
whether getConnection succeeds, and which tables exist in the current
schema (the result set of the existence probe). -/
structure StmtEnv where
  flavor : Conn.DBFlavor
  connOk : Bool := true
  tables : List String := []

/-- A query issued against the connection during the transform: SQL text
and parameters. -/
abbrev Trace := List (String × List String)

/-- The table-existence probe SQL issued by assertPostgresTableExists. -/
def postgresTableExistQuery : String :=
  "\n   SELECT EXISTS (\n       SELECT 1\n       FROM   information_schema.tables\n       WHERE  table_schema = current_schema()\n       AND    table_name = $1\n   );"

/-- The PostgreSQL rewrite of SHOW TABLES. -/
def postgresShowTablesQuery : String :=
  "\nSELECT table_name\nFROM information_schema.tables\nWHERE table_schema = current_schema()\nORDER BY table_name ASC\n"

/-- The PostgreSQL rewrite of SHOW INDEXES FROM. -/
def postgresShowIndexesQuery : String :=
  "\nSELECT indexname, indexdef\nFROM pg_indexes\nWHERE tablename = $1\nORDER BY indexname ASC\n"

/-- The PostgreSQL rewrite of DESCRIBE: the five-column metadata query.
The SQL text is abbreviated to its head here only in this doc comment;
the definition carries the full text of the source constant. -/
def postgresDescribeQuery : String :=
  "\nWITH columns AS (\n  SELECT\n    c.column_name AS \"Field\",\n    -- Include character length and numeric precision/scale for relevant data types\n    CASE\n        WHEN c.data_type = 'character' AND c.character_maximum_length IS NOT NULL THEN c.data_type || '(' || c.character_maximum_length || ')'\n        WHEN c.data_type = 'character varying' AND c.character_maximum_length IS NOT NULL THEN c.data_type || '(' || c.character_maximum_length || ')'\n        WHEN c.data_type = 'character' THEN c.data_type\n        WHEN c.data_type = 'character varying' THEN c.data_type\n        WHEN c.data_type = 'numeric' THEN c.data_type || '(' || c.numeric_precision || ', ' || c.numeric_scale || ')'\n        ELSE c.data_type\n    END AS \"Type\",\n    CASE\n        WHEN c.is_nullable = 'YES' THEN 'YES'\n        ELSE 'NO'\n    END AS \"Null\",\n    CASE\n        WHEN kcu.column_name IS NOT NULL AND tc.constraint_type = 'PRIMARY KEY' THEN 'PRI'\n        WHEN kcu.column_name IS NOT NULL AND tc.constraint_type = 'UNIQUE' THEN 'UNI'\n        WHEN i.indexname IS NOT NULL AND i.indisunique THEN 'UNI'\n        WHEN i.indexname IS NOT NULL THEN 'MUL'\n        ELSE ''\n    END AS \"Key\",\n    COALESCE(c.column_default, 'NULL') AS \"Default\"\n  FROM\n    information_schema.columns c\n  LEFT JOIN\n    information_schema.key_column_usage kcu\n    ON c.table_name = kcu.table_name AND c.column_name = kcu.column_name\n  LEFT JOIN\n    information_schema.table_constraints tc\n    ON kcu.table_name = tc.table_name AND kcu.constraint_name = tc.constraint_name\n  LEFT JOIN\n    (\n        SELECT\n            ic.relname as indexname,\n            a.attname as column_name,\n            i.indrelid::regclass::text as table_name,\n            a.attnum,\n            i.indkey as indkey,\n            i.indkey[0] as first_column,\n            i.indisunique\n        FROM\n            pg_class t,\n            pg_class ic,\n            pg_index i,\n            pg_attribute a\n        WHERE\n            t.oid = i.indrelid\n            AND ic.oid = i.indexrelid\n            AND a.attrelid = t.oid\n            AND a.attnum = ANY(i.indkey)\n            AND t.relkind = 'r'\n            AND ic.relkind = 'i'\n            AND i.indisprimary = false\n    ) i\n    ON c.table_name = i.table_name AND c.column_name = i.column_name\n    AND (i.column_name = c.column_name AND (i.attnum = i.first_column OR array_length(i.indkey, 1) = 1))\n  WHERE\n    c.table_name = $1\n)\nSELECT\n  \"Field\",\n  \"Type\",\n  \"Null\",\n  \"Key\",\n  \"Default\"\nFROM\n  columns;\n"

/-- assertPostgresTableExists: acquire the connection (error when that
fails, issuing nothing), then issue the existence probe with the table
name as parameter; the probe always yields one boolean row, modelled as
membership of the table in the environment. A false result is the
descriptive table-does-not-exist error. The pair component records every
query issued against the connection. -/
def assertPostgresTableExists (env : StmtEnv) (tableName : String) :
    Except GoErr Unit × Trace :=
  if env.connOk then
    (if tableName ∈ env.tables then .ok () else .error (.tableDoesNotExist tableName),
     [(postgresTableExistQuery, [tableName])])
  else
    (.error .connFailed, [])

/-- buildDescribeQuery: MySQL passes the original statement through with
nil parameters; PostgreSQL first asserts the table exists and on success
returns the describe rewrite with the table name as parameter; any other
flavor is a not-supported error. -/
def buildDescribeQuery (env : StmtEnv) (tableName originalStatement : String) :
    Except GoErr StatementWithParams × Trace :=
  if env.flavor = Conn.MySQL then
    (.ok ⟨originalStatement, []⟩, [])
  else if env.flavor = Conn.PostgreSQL then
    match assertPostgresTableExists env tableName with
    | (.error e, tr) => (.error e, tr)
    | (.ok _, tr) => (.ok ⟨postgresDescribeQuery, [tableName]⟩, tr)
  else
    (.error (.notSupported "DESCRIBE" env.flavor), [])

/-- buildShowIndexesQuery: same shape as buildDescribeQuery with the
show-indexes rewrite. -/
def buildShowIndexesQuery (env : StmtEnv) (tableName originalStatement : String) :
    Except GoErr StatementWithParams × Trace :=
  if env.flavor = Conn.MySQL then
    (.ok ⟨originalStatement, []⟩, [])
  else if env.flavor = Conn.PostgreSQL then
    match assertPostgresTableExists env tableName with
    | (.error e, tr) => (.error e, tr)
    | (.ok _, tr) => (.ok ⟨postgresShowIndexesQuery, [tableName]⟩, tr)
  else
    (.error (.notSupported "SHOW INDEXES" env.flavor), [])

/-- buildShowTablesQuery: PostgreSQL gets the fixed information-schema
query, MySQL passes through, any other flavor errors. -/
def buildShowTablesQuery (env : StmtEnv) (originalStatement : String) :
    Except GoErr StatementWithParams × Trace :=
  if env.flavor = Conn.PostgreSQL then
    (.ok ⟨postgresShowTablesQuery, []⟩, [])
  else if env.flavor = Conn.MySQL then
    (.ok ⟨originalStatement, []⟩, [])
  else
    (.error (.notSupported "SHOW TABLES" env.flavor), [])

/-- DBClient.transformStatement: try the three meta-command recognizers in
order, fall through to the unchanged statement with nil parameters. -/
def transformStatement (env : StmtEnv) (statement : String) :
    Except GoErr StatementWithParams × Trace :=
  match statementIsDescribe statement with
  | some tableName => buildDescribeQuery env tableName statement
  | none =>
    match statementIsShowIndexes statement with
    | some tableName => buildShowIndexesQuery env tableName statement
    | none =>
      if statementIsShowTables statement then
        buildShowTablesQuery env statement
      else
        (.ok ⟨statement, []⟩, [])

end Stmt

/-- The outcome of running a piece of Go code that can panic: a normal
result, or a runtime panic from dereferencing a nil pointer. -/
inductive Outcome (α : Type)
  | ok (a : α)
  | nilPanic
deriving DecidableEq

namespace Conn

/-- A live sqlx.DB handle (the pool object); the flag records whether
Close was called on it. -/
structure SqlxDB where
  closed : Bool := false
deriving DecidableEq

/-- A live sqlx.Conn handle; the flag records whether Close was called. -/
structure SqlxConn where
  closed : Bool := false
deriving DecidableEq

/-- ConnectionManager from the conn package: the pool handle, the single
cached connection (none models the nil pointer), and the DSN manager
(a DSNOptions value in this program). -/
structure ConnectionManager where
  sqlDB : Option SqlxDB
  conn : Option SqlxConn
  dsn : DSNOptions
deriving DecidableEq

/-- CreateConnectionManager after a successful createDB: pool handle set,
conn explicitly nil. -/
def CreateConnectionManager (db : SqlxDB) (dsn : DSNOptions) : ConnectionManager :=
  { sqlDB := some db, conn := none, dsn := dsn }

/-- ConnectionManager.Destroy. The source calls Close on the conn field
and then on the sqlDB field, discarding both errors, then sets both to
nil. Close is a method promoted from the embedded pointer inside
sqlx.Conn and sqlx.DB, so calling it through a nil outer pointer
dereferences that nil pointer: when the field is none the call is a
runtime panic, not an ignorable error. Closing a non-nil handle that is
already closed merely returns an error, which the source discards. -/
def ConnectionManager.Destroy (cm : ConnectionManager) : Outcome ConnectionManager :=
  match cm.conn with
  | none => .nilPanic
  | some _ =>
    match cm.sqlDB with
    | none => .nilPanic
    | some _ => .ok { cm with sqlDB := none, conn := none }

/-- The environment UseDatabase runs against: what createDB (GetDSN, open,
ping, pool configuration) returns for a given options value. -/
structure CreateEnv where
  create : DSNOptions → Except String SqlxDB

/-- ConnectionManager.UseDatabase: mutate the DSN manager with the new
database name, run createDB against the updated options, return the
wrapped error on failure without touching the held handles, and only on
success destroy the old handles and install the new pool handle. -/
def ConnectionManager.UseDatabase (env : CreateEnv) (cm : ConnectionManager)
    (databaseName : String) : Outcome (Except String Unit × ConnectionManager) :=
  let cm1 := { cm with dsn := { cm.dsn with DatabaseName := databaseName } }
  match env.create cm1.dsn with
  | .error e => .ok (.error ("Failed to switch database\n" ++ e), cm1)
  | .ok newDB =>
    match cm1.Destroy with
    | .nilPanic => .nilPanic
    | .ok cm2 => .ok (.ok (), { cm2 with sqlDB := some newDB })

end Conn

namespace DbQ

/-- Case-sensitive match of a literal pattern against the front of the
input, returning the rest on success. -/
def matchLit : List Char → List Char → Option (List Char)
  | [], input => some input
  | _ :: _, [] => none
  | l :: ls, c :: cs => if c = l then matchLit ls cs else none

/-- Matcher for the regexp tail quote? (word+) quote? end-of-text used by
this revision of the recognizer (no optional semicolon). -/
def matchNameTailNoSemi (cs : List Char) : Option String :=
  let cs1 := if cs.head? = some '"' then cs.tail else cs
  let w := cs1.takeWhile isWordChar
  let rest := cs1.dropWhile isWordChar
  if w.isEmpty then none
  else
    let rest2 := if rest.head? = some '"' then rest.tail else rest
    if rest2.isEmpty then some (String.mk w) else none

/-- statementIsDescribe as compiled into DBClient (db.go): a
case-sensitive anchored match of DESCRIBE quote? (word+) quote? against
the raw, untrimmed query text. -/
def statementIsDescribe (query : String) : Option String :=
  match matchLit "DESCRIBE ".data query.data with
  | none => none
  | some rest => matchNameTailNoSemi rest

/-- DBClient.buildDescribeQuery (db.go revision): for PostgreSQL the
describe rewrite with the table name parameter, for every other flavor
not-ok. -/
def buildDescribeQuery (flavor : Conn.DBFlavor) (tableName : String) :
    Option (String × List String) :=
  if flavor = Conn.PostgreSQL then
    some (Stmt.postgresDescribeQuery, [tableName])
  else
    none

/-- DBClient.transformStatement (db.go revision): non-PostgreSQL flavors
pass through; a PostgreSQL DESCRIBE is rewritten, everything else passes
through with nil parameters. -/
def transformStatement (flavor : Conn.DBFlavor) (statement : String) :
    String × List String :=
  if flavor ≠ Conn.PostgreSQL then (statement, [])
  else
    match statementIsDescribe statement with
    | some tableName =>
      match buildDescribeQuery flavor tableName with
      | some (newQuery, params) => (newQuery, params)
      | none => (statement, [])
    | none => (statement, [])

/-- A scanned cell: some s for a valid sql.NullString, none for SQL NULL. -/
abbrev Cell := Option String

/-- What conn.QueryxContext yields for a statement: a driver error, a nil
rows iterator, or an iterator carrying a column-name computation (which
itself can fail) and the scanned rows. -/
inductive ExecResult
  | failed (e : String)
  | nilRows
  | rows (cols : Except String (List String)) (data : List (List Cell))

/-- The environment a Query call runs against: the configured flavor, the
outcome of getConnection, and the driver response to each issued
statement with its parameters. -/
structure QueryEnv where
  flavor : Conn.DBFlavor
  connErr : Option String := none
  exec : String → List String → ExecResult

/-- QueryResult from this revision of db.go: each row maps column name to
the display string (NULL cells already replaced by the literal NULL),
plus the column names in selection order. Rows are Go maps, modelled as
association lists built with overwriting insertion. -/
structure QueryResult where
  Rows : List (List (String × String))
  Columns : List String

/-- The scan loop: each row is scanned into a slice of len(columns)
nullable strings; a row whose arity differs from the column count makes
rows.Scan fail, aborting the loop with an error. -/
def scanRows (ncols : Nat) : List (List Cell) → Except String (List (List Cell))
  | [] => .ok []
  | r :: rs =>
    if r.length = ncols then
      match scanRows ncols rs with
      | .error e => .error e
      | .ok rest => .ok (r :: rest)
    else
      .error "failed to read rows"

/-- Turn one scanned row into the column-to-value map: walk the row by
index, writing columns[i] to the cell string, or the literal NULL for an
invalid (SQL NULL) cell. -/
def mapRow (columns : List String) (r : List Cell) : List (String × String) :=
  (columns.zip r).foldl
    (fun m kc => mapInsert m kc.1 (match kc.2 with | some s => s | none => "NULL"))
    []

/-- DBClient.Query: acquire the connection, transform the statement,
execute it; a driver error is wrapped with Query Failed; a nil iterator
returns nil result and nil error; otherwise read the column names, scan
every row, and build the mapped result with a nil error. The returned
pair is (results, err), each side optional exactly as the Go pointer and
error are. -/
def Query (env : QueryEnv) (statement : String) :
    Option QueryResult × Option String :=
  match env.connErr with
  | some e => (none, some e)
  | none =>
    match env.exec (transformStatement env.flavor statement).1
        (transformStatement env.flavor statement).2 with
    | .failed e => (none, some ("Query Failed\n" ++ e))
    | .nilRows => (none, none)
    | .rows colsE data =>
      match colsE with
      | .error e => (none, some ("Could not determine columns\n" ++ e))
      | .ok columns =>
        match scanRows columns.length data with
        | .error e => (none, some e)
        | .ok rawRows =>
          (some { Rows := rawRows.map (mapRow columns), Columns := columns }, none)

end DbQ

namespace Display

/-- NullString wraps sql.NullString: the cell content and its validity
(valid = false models SQL NULL). The Go fields String and Valid are named
str and valid here. -/
structure NullString where
  str : String
  valid : Bool
deriving DecidableEq

/-- NullString.ToString: the literal NULL for an invalid cell, the content
otherwise. -/
def NullString.ToString (ns : NullString) : String :=
  if !ns.valid then "NULL" else ns.str

/-- Escape one character of a JSON string the way encoding/json does with
its default HTML escaping: quote, backslash, newline, carriage return and
tab get two-character escapes; other control characters and the HTML
characters less-than, greater-than and ampersand, as well as U+2028 and
U+2029, get unicode escapes; everything else stands for itself. -/
def jsonEscapeChar (c : Char) : List Char :=
  if c = '"' then ['\\', '"']
  else if c = '\\' then ['\\', '\\']
  else if c = '\n' then ['\\', 'n']
  else if c = '\r' then ['\\', 'r']
  else if c = '\t' then ['\\', 't']
  else if c.toNat < 32 || c = '<' || c = '>' || c = '&' then
    ['\\', 'u', '0', '0', hexDigitLower (c.toNat / 16), hexDigitLower (c.toNat % 16)]
  else if c.toNat = 8232 then ['\\', 'u', '2', '0', '2', '8']
  else if c.toNat = 8233 then ['\\', 'u', '2', '0', '2', '9']
  else [c]

/-- json.Marshal of a string value: the escaped content between quotes. -/
def jsonMarshalString (s : String) : String :=
  "\"" ++ String.mk (s.data.map jsonEscapeChar).flatten ++ "\""

/-- NullString.MarshalJSON: a JSON string for a valid cell, the JSON null
for SQL NULL. -/
def NullString.MarshalJSON (ns : NullString) : String :=
  if ns.valid then jsonMarshalString ns.str else "null"

/-- QueryResult from the data-display revision: rows map column name to a
nullable-string cell; columns keep selection order. -/
structure QueryResult where
  Rows : List (List (String × NullString))
  Columns : List String

/-- Byte-wise (equivalently code-point-wise, since UTF-8 preserves code
point order) comparison of map keys, the order encoding/json sorts object
keys in. -/
def keyLt : List Char → List Char → Bool
  | [], [] => false
  | [], _ :: _ => true
  | _ :: _, [] => false
  | a :: as, b :: bs =>
    if a.toNat < b.toNat then true
    else if b.toNat < a.toNat then false
    else keyLt as bs

/-- Insertion step of the key sort used when marshalling a Go map. -/
def insertSorted (kv : String × NullString) :
    List (String × NullString) → List (String × NullString)
  | [] => [kv]
  | x :: xs => if keyLt x.1.data kv.1.data then x :: insertSorted kv xs else kv :: x :: xs

/-- encoding/json marshals map entries in sorted key order. -/
def sortByKey (row : List (String × NullString)) : List (String × NullString) :=
  row.foldr insertSorted []

/-- json.Marshal of one row map: entries in sorted key order, each the
marshalled key, a colon, and the value marshalled through
NullString.MarshalJSON. -/
def marshalRow (row : List (String × NullString)) : String :=
  "\x7b" ++
    stringsJoin ","
      ((sortByKey row).map (fun kv => jsonMarshalString kv.1 ++ ":" ++ kv.2.MarshalJSON)) ++
  "\x7d"

/-- QueryResult.ToJSON: json.Marshal of the rows slice, an array of the
row objects. (The marshal cannot fail on this data model, so the source
panic path is unreachable and not modelled.) -/
def QueryResult.ToJSON (qr : QueryResult) : String :=
  "[" ++ stringsJoin "," (qr.Rows.map marshalRow) ++ "]"

/-- The cell texts of one row in header order: every column's cell
rendered through NullString.ToString. Reading a column absent from the
row map yields the nil pointer zero value, and calling ToString on it
dereferences nil: a runtime panic. -/
def rowCells (row : List (String × NullString)) :
    List String → Outcome (List String)
  | [] => .ok []
  | c :: cs =>
    match mapLookup row c with
    | none => .nilPanic
    | some cell =>
      match rowCells row cs with
      | .nilPanic => .nilPanic
      | .ok rest => .ok (cell.ToString :: rest)

/-- One CSV data line: the row's cell texts joined by commas. -/
def rowLine (columns : List String) (row : List (String × NullString)) :
    Outcome String :=
  match rowCells row columns with
  | .nilPanic => .nilPanic
  | .ok vs => .ok (stringsJoin "," vs)

/-- The data lines of the CSV, in row order; a panic in any line is the
panic of the whole serialization. -/
def rowLines (columns : List String) :
    List (List (String × NullString)) → Outcome (List String)
  | [] => .ok []
  | row :: rest =>
    match rowLine columns row with
    | .nilPanic => .nilPanic
    | .ok l =>
      match rowLines columns rest with
      | .nilPanic => .nilPanic
      | .ok ls => .ok (l :: ls)

/-- QueryResult.ToCSV: the header line (columns joined by commas) followed
by one newline-prefixed data line per row. -/
def QueryResult.ToCSV (qr : QueryResult) : Outcome String :=
  match rowLines qr.Columns qr.Rows with
  | .nilPanic => .nilPanic
  | .ok ls =>
    .ok (stringsJoin "," qr.Columns ++ concatStrings (ls.map (fun l => "\n" ++ l)))

end Display

section Helpers

lemma stringsJoin_data (sep : String) :
    ∀ ps : List String,
      (stringsJoin sep ps).data = List.intercalate sep.data (ps.map String.data)
  | [] => by simp [stringsJoin, List.intercalate]
  | [s] => by simp [stringsJoin, List.intercalate]
  | s :: t :: rest => by
    have ih := stringsJoin_data sep (t :: rest)
    simp only [stringsJoin, String.data_append, ih, List.map_cons, List.intercalate,
      List.intersperse_cons_cons, List.flatten_cons, List.append_assoc]

lemma isSubstr_extend {p s : String} (h : IsSubstr p s) (a b : String) :
    IsSubstr p (a ++ s ++ b) := by
  obtain ⟨s1, s2, hs⟩ := h
  exact ⟨a.data ++ s1, s2 ++ b.data, by simp [String.data_append, ← hs]⟩

lemma isSubstr_of_mem_join {p : String} (sep : String) :
    ∀ ps : List String, p ∈ ps → IsSubstr p (stringsJoin sep ps)
  | [], h => by cases h
  | [s], h => by
    have hs := List.mem_singleton.mp h
    subst hs
    exact ⟨[], [], by simp [stringsJoin]⟩
  | s :: t :: rest, h => by
    rcases List.mem_cons.mp h with rfl | h2
    · exact ⟨[], (sep ++ stringsJoin sep (t :: rest)).data, by
        simp [stringsJoin, String.data_append]⟩
    · have ih := isSubstr_of_mem_join sep (t :: rest) h2
      obtain ⟨s1, s2, hs⟩ := ih
      exact ⟨(s ++ sep).data ++ s1, s2, by
        simp [stringsJoin, String.data_append, ← hs]⟩

lemma mapLookup_mapInsert_isSome {β : Type} (k2 k : String) (v : β) :
    ∀ m : List (String × β),
      (mapLookup (mapInsert m k v) k2).isSome
        ↔ k2 = k ∨ (mapLookup m k2).isSome
  | [] => by
    simp only [mapInsert, mapLookup]
    by_cases h : k = k2
    · subst h
      simp
    · have hs : ¬(k2 = k) := fun a => h a.symm
      simp [h, hs]
  | (k1, v1) :: rest => by
    simp only [mapInsert]
    by_cases h1 : k1 = k
    · subst h1
      simp only [if_pos rfl]
      by_cases h2 : k1 = k2
      · subst h2
        simp [mapLookup]
      · have h2s : ¬(k2 = k1) := fun a => h2 a.symm
        simp [mapLookup, h2, h2s]
    · simp only [if_neg h1]
      by_cases h2 : k1 = k2
      · subst h2
        simp [mapLookup]
      · simp [mapLookup, h2, mapLookup_mapInsert_isSome k2 k v rest]

lemma mapLookup_foldl_mapRow (k : String) :
    ∀ (pairs : List (String × DbQ.Cell)) (m : List (String × String)),
      (mapLookup (pairs.foldl (fun acc kc => mapInsert acc kc.1
          (match kc.2 with | some s => s | none => "NULL")) m) k).isSome
        ↔ k ∈ pairs.map Prod.fst ∨ (mapLookup m k).isSome
  | [], m => by simp
  | kc :: rest, m => by
    rw [List.foldl_cons, mapLookup_foldl_mapRow k rest]
    simp [mapLookup_mapInsert_isSome, or_assoc, or_comm, or_left_comm]

lemma mem_stripHead {c q : Char} {l : List Char} (h : c ∈ l) (hne : c ≠ q) :
    c ∈ (if l.head? = some q then l.tail else l) := by
  match l with
  | [] => cases h
  | x :: xs =>
    rcases List.mem_cons.mp h with rfl | h2
    · simp only [List.head?_cons, List.tail_cons]
      split
      · next heq => exact absurd (Option.some.inj heq) hne
      · exact List.mem_cons_self c xs
    · simp only [List.head?_cons, List.tail_cons]
      split <;> [exact h2; exact List.mem_cons_of_mem x h2]

lemma mem_dropWhile_of_not {p : Char → Bool} {c : Char} :
    ∀ l : List Char, c ∈ l → p c = false → c ∈ List.dropWhile p l
  | [], h, _ => by cases h
  | x :: xs, h, hp => by
    rw [List.dropWhile_cons]
    rcases List.mem_cons.mp h with rfl | h2
    · simp [hp]
    · split
      · exact mem_dropWhile_of_not xs h2 hp
      · exact List.mem_cons_of_mem x h2

lemma scanRows_ok {n : Nat} :
    ∀ {data rws : List (List DbQ.Cell)}, DbQ.scanRows n data = .ok rws →
      rws = data ∧ ∀ r ∈ data, r.length = n
  | [], rws, h => by
    simp only [DbQ.scanRows] at h
    cases h
    exact ⟨rfl, by simp⟩
  | r :: rs, rws, h => by
    simp only [DbQ.scanRows] at h
    split at h
    · next hlen =>
      split at h
      · cases h
      · next rest hrest =>
        cases h
        obtain ⟨heq, hall⟩ := scanRows_ok hrest
        subst heq
        exact ⟨rfl, by
          intro x hx
          rcases List.mem_cons.mp hx with rfl | hx2
          · exact hlen
          · exact hall x hx2⟩
    · cases h

lemma mem_insertSorted (kv : String × Display.NullString) :
    ∀ (l : List (String × Display.NullString)) (a : String × Display.NullString),
      a ∈ Display.insertSorted kv l ↔ a = kv ∨ a ∈ l
  | [], a => by simp [Display.insertSorted]
  | x :: xs, a => by
    simp only [Display.insertSorted]
    split <;> (simp only [List.mem_cons, mem_insertSorted kv xs a]; try tauto)

lemma mem_sortByKey {a : String × Display.NullString} :
    ∀ {row : List (String × Display.NullString)},
      a ∈ row → a ∈ Display.sortByKey row
  | [], h => by cases h
  | x :: xs, h => by
    simp only [Display.sortByKey, List.foldr_cons]
    rw [mem_insertSorted]
    rcases List.mem_cons.mp h with rfl | h2
    · exact Or.inl rfl
    · exact Or.inr (mem_sortByKey h2)

lemma trimSpace_eq_self {s : String}
    (h1 : ∃ c cs, s.data = c :: cs ∧ goIsSpace c = false)
    (h2 : ∃ c cs, s.data.reverse = c :: cs ∧ goIsSpace c = false) :
    trimSpace s = s := by
  obtain ⟨c, cs, hd, hc⟩ := h1
  obtain ⟨d, ds, hr, hdn⟩ := h2
  have e1 : List.dropWhile goIsSpace s.data = s.data := by
    rw [hd, List.dropWhile_cons]
    simp [hc]
  have e2 : List.dropWhile goIsSpace s.data.reverse = s.data.reverse := by
    rw [hr, List.dropWhile_cons]
    simp [hdn]
  unfold trimSpace
  rw [e1, e2, List.reverse_reverse]

lemma matchLitCI_append : ∀ (lit rest : List Char),
    Stmt.matchLitCI lit (lit ++ rest) = some rest
  | [], _ => rfl
  | l :: ls, rest => by
    simp [Stmt.matchLitCI, matchLitCI_append ls rest]

lemma matchLitCI_none_of_head {l c : Char} {ls cs : List Char}
    (h : asciiUpper c ≠ asciiUpper l) :
    Stmt.matchLitCI (l :: ls) (c :: cs) = none := by
  simp [Stmt.matchLitCI, h]

lemma matchNameTail_eq_none_of_bad {cs : List Char} {c : Char}
    (hc : c ∈ cs) (hw : isWordChar c = false) (hq : c ≠ '"') (hs : c ≠ ';') :
    Stmt.matchNameTail cs = none := by
  simp only [Stmt.matchNameTail]
  set cs1 := (if cs.head? = some '"' then cs.tail else cs) with hcs1
  set rest := List.dropWhile isWordChar cs1 with hrest
  set rest2 := (if rest.head? = some '"' then rest.tail else rest) with hrest2
  set rest3 := (if rest2.head? = some ';' then rest2.tail else rest2) with hrest3
  have hc1 : c ∈ cs1 := mem_stripHead hc hq
  have hm : c ∈ rest := mem_dropWhile_of_not _ hc1 hw
  have hm2 : c ∈ rest2 := mem_stripHead hm hq
  have hm3 : c ∈ rest3 := mem_stripHead hm2 hs
  split
  · rfl
  · split
    · next hempty =>
      exfalso
      rw [List.isEmpty_iff] at hempty
      rw [hempty] at hm3
      cases hm3
    · rfl

/-- The cell a row map holds for a column, with the zero value as default
(used only to state properties of rows whose lookups are all defined). -/
def Display.cellAt (row : List (String × Display.NullString)) (c : String) :
    Display.NullString :=
  (mapLookup row c).getD ⟨"", false⟩

lemma rowCells_ok (row : List (String × Display.NullString)) :
    ∀ cols : List String, (∀ c ∈ cols, (mapLookup row c).isSome) →
      Display.rowCells row cols
        = .ok (cols.map (fun c => (Display.cellAt row c).ToString))
  | [], _ => rfl
  | c :: cs, h => by
    obtain ⟨cell, hcell⟩ :=
      Option.isSome_iff_exists.mp (h c (List.mem_cons_self c cs))
    simp only [Display.rowCells, hcell]
    rw [rowCells_ok row cs (fun x hx => h x (List.mem_cons_of_mem c hx))]
    simp [Display.cellAt, hcell]

lemma rowLines_ok (cols : List String) :
    ∀ rows : List (List (String × Display.NullString)),
      (∀ row ∈ rows, ∀ c ∈ cols, (mapLookup row c).isSome) →
      Display.rowLines cols rows
        = .ok (rows.map (fun row =>
            stringsJoin "," (cols.map (fun c => (Display.cellAt row c).ToString))))
  | [], _ => rfl
  | row :: rest, h => by
    simp only [Display.rowLines, Display.rowLine,
      rowCells_ok row cols (h row (List.mem_cons_self row rest))]
    rw [rowLines_ok cols rest (fun r hr => h r (List.mem_cons_of_mem row hr))]
    simp

lemma header_concat_data :
    ∀ (header : String) (ls : List String),
      (header ++ concatStrings (ls.map (fun l => "\n" ++ l))).data
        = List.intercalate ['\n'] (header.data :: ls.map String.data)
  | header, [] => by
    simp [concatStrings, List.intercalate]
  | header, l :: ls => by
    have ih := header_concat_data l ls
    simp only [List.map_cons, concatStrings, String.data_append, List.intercalate,
      List.intersperse_cons_cons, List.flatten_cons, List.append_assoc,
      show ("\n" : String).data = ['\n'] from rfl, List.cons_append,
      List.nil_append] at ih ⊢
    rw [ih]

lemma not_mem_intercalate {x : Char} {sep : List Char} (hsep : x ∉ sep) :
    ∀ ls : List (List Char), (∀ l ∈ ls, x ∉ l) → x ∉ List.intercalate sep ls
  | [], _ => by simp [List.intercalate]
  | [l], h => by
    simpa [List.intercalate] using h l (List.mem_singleton.mpr rfl)
  | l :: m :: ls, h => by
    have htail := not_mem_intercalate hsep (m :: ls)
      (fun a ha => h a (List.mem_cons_of_mem l ha))
    simp only [List.intercalate, List.intersperse_cons_cons, List.flatten_cons] at htail ⊢
    simp only [List.mem_append, not_or]
    exact ⟨h l (List.mem_cons_self l (m :: ls)), hsep, by simpa using htail⟩

lemma isSubstr_left {p s : String} (h : IsSubstr p s) (a : String) :
    IsSubstr p (a ++ s) := by
  obtain ⟨s1, s2, hs⟩ := h
  exact ⟨a.data ++ s1, s2, by simp [String.data_append, ← hs]⟩

lemma isSubstr_right {p s : String} (h : IsSubstr p s) (b : String) :
    IsSubstr p (s ++ b) := by
  obtain ⟨s1, s2, hs⟩ := h
  exact ⟨s1, s2 ++ b.data, by simp [String.data_append, ← hs]⟩

end Helpers

/-- C2: for every cell, SQL NULL renders as the literal string NULL in the
text form used by CSV and table display while MarshalJSON emits a JSON
null for the same cell; a non-NULL cell renders as its string content in
text form and as a JSON string; and ToJSON contains, for every entry of
every row, exactly the per-cell MarshalJSON rendering next to its key, so
the two representations agree on non-NULL cells and deliberately differ
on NULL cells. -/
theorem null_cells_dual_representation (c : Display.NullString) :
    (c.valid = false →
      c.ToString = "NULL" ∧ c.MarshalJSON = "null") ∧
    (c.valid = true →
      c.ToString = c.str ∧ c.MarshalJSON = Display.jsonMarshalString c.str) ∧
    (∀ (qr : Display.QueryResult) (row : List (String × Display.NullString)) (k : String),
      row ∈ qr.Rows → (k, c) ∈ row →
      IsSubstr (Display.jsonMarshalString k ++ ":" ++ c.MarshalJSON) qr.ToJSON) := by
  refine ⟨?_, ?_, ?_⟩
  · intro h
    simp [Display.NullString.ToString, Display.NullString.MarshalJSON, h]
  · intro h
    simp [Display.NullString.ToString, Display.NullString.MarshalJSON, h]
  · intro qr row k hrow hk
    have h1 : (Display.jsonMarshalString k ++ ":" ++ c.MarshalJSON)
        ∈ (Display.sortByKey row).map
            (fun kv => Display.jsonMarshalString kv.1 ++ ":" ++ kv.2.MarshalJSON) :=
      List.mem_map.mpr ⟨(k, c), mem_sortByKey hk, rfl⟩
    have h2 := isSubstr_of_mem_join "," _ h1
    have h3 : IsSubstr (Display.jsonMarshalString k ++ ":" ++ c.MarshalJSON)
        (Display.marshalRow row) := by
      have := isSubstr_extend h2 "\x7b" "\x7d"
      simpa [Display.marshalRow] using this
    have h4 : Display.marshalRow row ∈ qr.Rows.map Display.marshalRow :=
      List.mem_map.mpr ⟨row, hrow, rfl⟩
    have h5 := isSubstr_of_mem_join "," _ h4
    have h6 : IsSubstr (Display.marshalRow row) qr.ToJSON := by
      have := isSubstr_extend h5 "[" "]"
      simpa [Display.QueryResult.ToJSON] using this
    exact List.IsInfix.trans h3 h6

/-- Witness for C2 at a result holding one NULL and one non-NULL cell in
the same row. -/
theorem null_cells_dual_representation_witness :
    ((⟨"", false⟩ : Display.NullString).ToString = "NULL" ∧
      (⟨"", false⟩ : Display.NullString).MarshalJSON = "null") ∧
    ((⟨"x", true⟩ : Display.NullString).ToString = "x" ∧
      (⟨"x", true⟩ : Display.NullString).MarshalJSON = Display.jsonMarshalString "x") ∧
    IsSubstr (Display.jsonMarshalString "a" ++ ":" ++ (⟨"", false⟩ : Display.NullString).MarshalJSON)
      (Display.QueryResult.ToJSON
        { Rows := [[("a", ⟨"", false⟩), ("b", ⟨"x", true⟩)]], Columns := ["a", "b"] }) ∧
    IsSubstr (Display.jsonMarshalString "b" ++ ":" ++ (⟨"x", true⟩ : Display.NullString).MarshalJSON)
      (Display.QueryResult.ToJSON
        { Rows := [[("a", ⟨"", false⟩), ("b", ⟨"x", true⟩)]], Columns := ["a", "b"] }) :=
  ⟨(null_cells_dual_representation ⟨"", false⟩).1 rfl,
   (null_cells_dual_representation ⟨"x", true⟩).2.1 rfl,
   (null_cells_dual_representation ⟨"", false⟩).2.2
     { Rows := [[("a", ⟨"", false⟩), ("b", ⟨"x", true⟩)]], Columns := ["a", "b"] }
     [("a", ⟨"", false⟩), ("b", ⟨"x", true⟩)] "a" (by simp) (by simp),
   (null_cells_dual_representation ⟨"x", true⟩).2.2
     { Rows := [[("a", ⟨"", false⟩), ("b", ⟨"x", true⟩)]], Columns := ["a", "b"] }
     [("a", ⟨"", false⟩), ("b", ⟨"x", true⟩)] "b" (by simp) (by simp)⟩

/-- C9, counterexample: a QueryResult with zero rows (so every cell text
vacuously contains no comma and no newline) and a single column whose
name contains a newline serializes to a CSV with two newline-separated
lines, not the claimed one. -/
theorem tocsv_newline_column_counterexample :
    Display.QueryResult.ToCSV { Rows := [], Columns := ["a\nb"] } = .ok "a\nb" ∧
    (("a\nb" : String).data.splitOn '\n').length ≠ 0 + 1 := by
  exact ⟨rfl, by decide⟩

/-- C9 as amended: for a QueryResult with at least one column, whose rows
each hold a cell for every column, whose cell texts contain no comma and
no newline, and whose column names contain no newline, ToCSV succeeds and
splits on newlines into exactly rows+1 lines: the header is the column
names joined by commas, and the i-th data line splits on commas into
exactly the cell texts of row i in column order (NULL rendered as the
literal NULL by ToString). -/
theorem tocsv_shape (qr : Display.QueryResult)
    (hM : qr.Columns ≠ [])
    (hcol : ∀ col ∈ qr.Columns, '\n' ∉ col.data)
    (hlook : ∀ row ∈ qr.Rows, ∀ col ∈ qr.Columns, (mapLookup row col).isSome)
    (hcell : ∀ row ∈ qr.Rows, ∀ col ∈ qr.Columns,
      ',' ∉ ((Display.cellAt row col).ToString).data ∧
      '\n' ∉ ((Display.cellAt row col).ToString).data) :
    ∃ s, qr.ToCSV = .ok s ∧
      s.data.splitOn '\n'
        = (stringsJoin "," qr.Columns).data
          :: qr.Rows.map (fun row =>
              (stringsJoin "," (qr.Columns.map
                (fun col => (Display.cellAt row col).ToString))).data) ∧
      (s.data.splitOn '\n').length = qr.Rows.length + 1 ∧
      ∀ row ∈ qr.Rows,
        (stringsJoin "," (qr.Columns.map
            (fun col => (Display.cellAt row col).ToString))).data.splitOn ','
          = qr.Columns.map (fun col => ((Display.cellAt row col).ToString).data) := by
  have hlines := rowLines_ok qr.Columns qr.Rows hlook
  have hdata := header_concat_data (stringsJoin "," qr.Columns)
    (qr.Rows.map (fun row =>
      stringsJoin "," (qr.Columns.map (fun col => (Display.cellAt row col).ToString))))
  have hnl : ∀ l ∈ (stringsJoin "," qr.Columns).data
      :: (qr.Rows.map (fun row =>
          stringsJoin "," (qr.Columns.map
            (fun col => (Display.cellAt row col).ToString)))).map String.data,
      '\n' ∉ l := by
    intro l hl
    rcases List.mem_cons.mp hl with rfl | hl2
    · rw [stringsJoin_data]
      refine not_mem_intercalate (by decide) _ ?_
      intro d hd
      obtain ⟨col, hcolmem, rfl⟩ := List.mem_map.mp hd
      exact hcol col hcolmem
    · obtain ⟨l2, hl2m, rfl⟩ := List.mem_map.mp hl2
      obtain ⟨row, hrowm, rfl⟩ := List.mem_map.mp hl2m
      rw [stringsJoin_data]
      refine not_mem_intercalate (by decide) _ ?_
      intro d hd
      obtain ⟨l3, hl3, rfl⟩ := List.mem_map.mp hd
      obtain ⟨col, hcolmem, rfl⟩ := List.mem_map.mp hl3
      exact (hcell row hrowm col hcolmem).2
  have hsplit : ((stringsJoin "," qr.Columns ++
      concatStrings ((qr.Rows.map (fun row =>
        stringsJoin "," (qr.Columns.map
          (fun col => (Display.cellAt row col).ToString)))).map
            (fun l => "\n" ++ l))).data).splitOn '\n'
      = (stringsJoin "," qr.Columns).data
        :: (qr.Rows.map (fun row =>
            stringsJoin "," (qr.Columns.map
              (fun col => (Display.cellAt row col).ToString)))).map String.data := by
    rw [hdata]
    exact List.splitOn_intercalate _ '\n' hnl (by simp)
  refine ⟨stringsJoin "," qr.Columns ++
      concatStrings ((qr.Rows.map (fun row =>
        stringsJoin "," (qr.Columns.map
          (fun col => (Display.cellAt row col).ToString)))).map
            (fun l => "\n" ++ l)), ?_, ?_, ?_, ?_⟩
  · simp only [Display.QueryResult.ToCSV, hlines]
  · rw [hsplit]
    simp [List.map_map, Function.comp]
  · rw [hsplit]
    simp
  · intro row hrow
    rw [stringsJoin_data]
    have hcomma : ∀ l ∈ (qr.Columns.map
        (fun col => (Display.cellAt row col).ToString)).map String.data, ',' ∉ l := by
      intro l hl
      obtain ⟨l2, hl2, rfl⟩ := List.mem_map.mp hl
      obtain ⟨col, hcolmem, rfl⟩ := List.mem_map.mp hl2
      exact (hcell row hrow col hcolmem).1
    have hne : (qr.Columns.map
        (fun col => (Display.cellAt row col).ToString)).map String.data ≠ [] := by
      simp [hM]
    rw [show (("," : String).data) = [','] from rfl]
    rw [List.splitOn_intercalate _ ',' hcomma hne]
    simp [List.map_map, Function.comp]

/-- Witness for C9 at a one-row, two-column result holding one non-NULL
and one NULL cell. -/
theorem tocsv_shape_witness :
    ∃ s, Display.QueryResult.ToCSV
        { Rows := [[("a", ⟨"1", true⟩), ("b", ⟨"", false⟩)]],
          Columns := ["a", "b"] } = .ok s ∧
      (s.data.splitOn '\n').length = 1 + 1 := by
  obtain ⟨s, h1, _, h3, _⟩ := tocsv_shape
    { Rows := [[("a", ⟨"1", true⟩), ("b", ⟨"", false⟩)]], Columns := ["a", "b"] }
    (by decide) (by decide) (by decide) (by decide)
  exact ⟨s, h1, h3⟩

/-- C6, counterexample: for PostgreSQL an additional option value is not
passed through raw; the value a b is emitted URL-escaped as a+b. -/
theorem addopts_pg_not_raw_counterexample :
    Conn.additionalOptionsToQueryParts
        { Flavor := Conn.PostgreSQL, AdditionalOptions := [("opt", "a b")] }
      = some ["opt=a+b"] ∧
    ("opt=a+b" : String) ≠ "opt=a b" := by
  exact ⟨rfl, by decide⟩

/-- C6 as amended: for every additionalOptions entry with a non-empty
value, the emitted part is the key equals the URL-escaped form of the
value, for every flavor (MySQL and PostgreSQL alike). -/
theorem addopts_escaped_value (o : Conn.DSNOptions) (k v : String)
    (hmem : (k, v) ∈ o.AdditionalOptions) (hv : v ≠ "") :
    ∃ ps, Conn.additionalOptionsToQueryParts o = some ps ∧
      (k ++ "=" ++ queryEscape v) ∈ ps := by
  have hne : o.AdditionalOptions.isEmpty = false := by
    cases h : o.AdditionalOptions.isEmpty
    · rfl
    · rw [List.isEmpty_iff] at h
      rw [h] at hmem
      cases hmem
  have heq : Conn.additionalOptionsToQueryParts o
      = some (o.AdditionalOptions.map (fun kv =>
          if kv.2 = "" then
            kv.1 ++ "=" ++ queryEscape
              (if o.Flavor = Conn.MySQL then "true"
               else if o.Flavor = Conn.PostgreSQL then "1" else "true")
          else kv.1 ++ "=" ++ queryEscape kv.2)) := by
    simp [Conn.additionalOptionsToQueryParts, hne]
  exact ⟨_, heq, List.mem_map.mpr ⟨(k, v), hmem, by simp [hv]⟩⟩

/-- Witness for the amended C6 at a PostgreSQL options value whose
additional option value needs escaping. -/
theorem addopts_escaped_value_witness :
    ∃ ps, Conn.additionalOptionsToQueryParts
        { Flavor := Conn.PostgreSQL, AdditionalOptions := [("opt", "a b")] }
      = some ps ∧ ("opt" ++ "=" ++ queryEscape "a b") ∈ ps :=
  addopts_escaped_value
    { Flavor := Conn.PostgreSQL, AdditionalOptions := [("opt", "a b")] }
    "opt" "a b" (by simp) (by decide)

/-- C7: for every options value with an additionalOptions entry whose
value is the empty string, the DSN produced by GetDSN contains that key
with the value true for MySQL and with the value 1 for PostgreSQL. -/
theorem dsn_empty_value_flag (o : Conn.DSNOptions) (k : String)
    (hmem : (k, "") ∈ o.AdditionalOptions) :
    (o.Flavor = Conn.MySQL →
      ∃ d, Conn.GetDSN o = .ok d ∧ IsSubstr (k ++ "=true") d) ∧
    (o.Flavor = Conn.PostgreSQL →
      ∃ d, Conn.GetDSN o = .ok d ∧ IsSubstr (k ++ "=1") d) := by
  have hne : o.AdditionalOptions.isEmpty = false := by
    cases h : o.AdditionalOptions.isEmpty
    · rfl
    · rw [List.isEmpty_iff] at h
      rw [h] at hmem
      cases hmem
  constructor
  · intro hf
    have hps : Conn.additionalOptionsToQueryParts o
        = some (o.AdditionalOptions.map (fun kv =>
            if kv.2 = "" then kv.1 ++ "=" ++ queryEscape "true"
            else kv.1 ++ "=" ++ queryEscape kv.2)) := by
      simp [Conn.additionalOptionsToQueryParts, hne, hf]
    have hstr : Conn.additionalOptionsToString o
        = "?" ++ stringsJoin "&" (o.AdditionalOptions.map (fun kv =>
            if kv.2 = "" then kv.1 ++ "=" ++ queryEscape "true"
            else kv.1 ++ "=" ++ queryEscape kv.2)) := by
      simp [Conn.additionalOptionsToString, hps]
    have hd : Conn.GetDSN o
        = .ok (Conn.mysqlFormatDSN o.User o.Password (Conn.getNetwork o)
            (o.Host ++ (if o.Port ≠ 0 && Conn.getNetwork o = "tcp"
              then ":" ++ toString o.Port else ""))
            o.DatabaseName ++ Conn.additionalOptionsToString o) := by
      simp [Conn.GetDSN, hf]
    refine ⟨_, hd, ?_⟩
    have hpartmem : (k ++ "=" ++ queryEscape "true")
        ∈ o.AdditionalOptions.map (fun kv =>
            if kv.2 = "" then kv.1 ++ "=" ++ queryEscape "true"
            else kv.1 ++ "=" ++ queryEscape kv.2) :=
      List.mem_map.mpr ⟨(k, ""), hmem, by simp⟩
    have h1 := isSubstr_of_mem_join "&" _ hpartmem
    have h2 := isSubstr_left (isSubstr_left h1 "?") (Conn.mysqlFormatDSN o.User
      o.Password (Conn.getNetwork o)
      (o.Host ++ (if o.Port ≠ 0 && Conn.getNetwork o = "tcp"
        then ":" ++ toString o.Port else "")) o.DatabaseName)
    rw [hstr]
    have hdata : ((k ++ "=true") : String).data
        = ((k ++ "=" ++ queryEscape "true") : String).data := by
      simp only [String.data_append, List.append_assoc]
      exact congrArg (k.data ++ ·) (by decide)
    show ((k ++ "=true") : String).data <:+: _
    rw [hdata]
    exact h2
  · intro hf
    have hps : Conn.additionalOptionsToQueryParts o
        = some (o.AdditionalOptions.map (fun kv =>
            if kv.2 = "" then kv.1 ++ "=" ++ queryEscape "1"
            else kv.1 ++ "=" ++ queryEscape kv.2)) := by
      simp [Conn.additionalOptionsToQueryParts, hne, hf, Conn.PostgreSQL, Conn.MySQL]
    have hd : Conn.GetDSN o
        = .ok (stringsJoin " "
            ((([("host", o.Host)] ++
              (if o.Port ≠ 0 then [("port", toString o.Port)] else []) ++
              [("dbname", o.DatabaseName), ("user", o.User),
                ("password", o.Password)]).filter
                  (fun kv => kv.2 ≠ "")).map (fun kv => kv.1 ++ "=" ++ kv.2) ++
              o.AdditionalOptions.map (fun kv =>
                if kv.2 = "" then kv.1 ++ "=" ++ queryEscape "1"
                else kv.1 ++ "=" ++ queryEscape kv.2))) := by
      simp [Conn.GetDSN, hf, Conn.PostgreSQL, Conn.MySQL, hps]
    refine ⟨_, hd, ?_⟩
    have hpartmem : (k ++ "=" ++ queryEscape "1")
        ∈ (([("host", o.Host)] ++
            (if o.Port ≠ 0 then [("port", toString o.Port)] else []) ++
            [("dbname", o.DatabaseName), ("user", o.User),
              ("password", o.Password)]).filter
                (fun kv => kv.2 ≠ "")).map (fun kv => kv.1 ++ "=" ++ kv.2) ++
            o.AdditionalOptions.map (fun kv =>
              if kv.2 = "" then kv.1 ++ "=" ++ queryEscape "1"
              else kv.1 ++ "=" ++ queryEscape kv.2) :=
      List.mem_append_right _ (List.mem_map.mpr ⟨(k, ""), hmem, by simp⟩)
    have h1 := isSubstr_of_mem_join " " _ hpartmem
    have hdata : ((k ++ "=1") : String).data
        = ((k ++ "=" ++ queryEscape "1") : String).data := by
      simp only [String.data_append, List.append_assoc]
      exact congrArg (k.data ++ ·) (by decide)
    show ((k ++ "=1") : String).data <:+: _
    rw [hdata]
    exact h1

/-- The MySQL options value used by the C7 witness. -/
def mysqlFlagOpts : Conn.DSNOptions :=
  { Flavor := Conn.MySQL, Host := "localhost", DatabaseName := "test",
    User := "root", Password := "pw", Port := 3306,
    AdditionalOptions := [("clientFoundRows", "")] }

/-- The PostgreSQL options value used by the C7 witness. -/
def pgFlagOpts : Conn.DSNOptions :=
  { Flavor := Conn.PostgreSQL, Host := "localhost", DatabaseName := "test",
    User := "root", Password := "pw", Port := 5432,
    AdditionalOptions := [("requiressl", "")] }

/-- Witness for C7 at a MySQL and a PostgreSQL options value, each with an
empty-valued additional option. -/
theorem dsn_empty_value_flag_witness :
    (∃ d, Conn.GetDSN mysqlFlagOpts = .ok d ∧
      IsSubstr ("clientFoundRows" ++ "=true") d) ∧
    (∃ d, Conn.GetDSN pgFlagOpts = .ok d ∧
      IsSubstr ("requiressl" ++ "=1") d) :=
  ⟨(dsn_empty_value_flag mysqlFlagOpts "clientFoundRows" (by simp [mysqlFlagOpts])).1 rfl,
   (dsn_empty_value_flag pgFlagOpts "requiressl" (by simp [pgFlagOpts])).2 rfl⟩

lemma trimSpace_append_eq {lit n : String} (c0 : Char) (l0 : List Char)
    (hl : lit.data = c0 :: l0) (h0 : goIsSpace c0 = false)
    (hns : ∀ c ∈ n.data, goIsSpace c = false) (hne : n.data ≠ []) :
    trimSpace (lit ++ n) = lit ++ n := by
  apply trimSpace_eq_self
  · refine ⟨c0, l0 ++ n.data, ?_, h0⟩
    rw [String.data_append, hl, List.cons_append]
  · obtain ⟨d, ds, hds⟩ := List.exists_cons_of_ne_nil
      (show n.data.reverse ≠ [] by simpa using hne)
    refine ⟨d, ds ++ lit.data.reverse, ?_, ?_⟩
    · rw [String.data_append, List.reverse_append, hds, List.cons_append]
    · exact hns d (List.mem_reverse.mp (hds ▸ List.mem_cons_self d ds))

/-- C1: for every statement matching the DESCRIBE meta-command shape, with
captured table name t: under MySQL the transform returns the original
statement unchanged with nil parameters and issues nothing against the
connection; under PostgreSQL, when the connection is available and t is
not among the tables of the current schema, the transform fails with the
table-does-not-exist error, the only query issued against the connection
is the existence probe, and the DESCRIBE-shaped rewritten SQL is never
issued. -/
theorem describe_transform (env : Stmt.StmtEnv) (s t : String)
    (h : Stmt.statementIsDescribe s = some t) :
    (env.flavor = Conn.MySQL →
      Stmt.transformStatement env s = (.ok ⟨s, []⟩, [])) ∧
    (env.flavor = Conn.PostgreSQL → env.connOk = true → t ∉ env.tables →
      Stmt.transformStatement env s
        = (.error (.tableDoesNotExist t), [(Stmt.postgresTableExistQuery, [t])]) ∧
      ∀ q ∈ [(Stmt.postgresTableExistQuery, [t])],
        q.1 ≠ Stmt.postgresDescribeQuery) := by
  constructor
  · intro hf
    simp [Stmt.transformStatement, h, Stmt.buildDescribeQuery, hf]
  · intro hf hconn htab
    refine ⟨?_, ?_⟩
    · simp [Stmt.transformStatement, h, Stmt.buildDescribeQuery, hf,
        Conn.PostgreSQL, Conn.MySQL, Stmt.assertPostgresTableExists, hconn, htab]
    · intro q hq
      rw [List.mem_singleton] at hq
      subst hq
      change Stmt.postgresTableExistQuery ≠ Stmt.postgresDescribeQuery
      simp [Stmt.postgresTableExistQuery, Stmt.postgresDescribeQuery]

/-- Witness for C1 at the statement DESCRIBE foo against a MySQL
environment and against a PostgreSQL environment with no tables. -/
theorem describe_transform_witness :
    Stmt.transformStatement { flavor := Conn.MySQL } "DESCRIBE foo"
      = (.ok ⟨"DESCRIBE foo", []⟩, []) ∧
    Stmt.transformStatement { flavor := Conn.PostgreSQL } "DESCRIBE foo"
      = (.error (.tableDoesNotExist "foo"),
          [(Stmt.postgresTableExistQuery, ["foo"])]) :=
  ⟨(describe_transform { flavor := Conn.MySQL } "DESCRIBE foo" "foo" (by decide)).1 rfl,
   ((describe_transform { flavor := Conn.PostgreSQL } "DESCRIBE foo" "foo"
      (by decide)).2 rfl rfl (by decide)).1⟩

/-- C10: the meta-command recognizers only accept a whitespace-free name
built from word characters, double quotes and semicolons in the shapes
the anchored regexps allow; for every name containing any other
character (for example a schema-qualified or hyphenated name), both
DESCRIBE name and SHOW INDEXES FROM name pass through the transform
unchanged with nil parameters and no issued queries, for every flavor. -/
theorem transform_ignores_nonword_names (env : Stmt.StmtEnv) (n : String)
    (hns : ∀ c ∈ n.data, goIsSpace c = false)
    (hbad : ∃ c ∈ n.data, isWordChar c = false ∧ c ≠ '"' ∧ c ≠ ';') :
    Stmt.transformStatement env ("DESCRIBE " ++ n)
      = (.ok ⟨"DESCRIBE " ++ n, []⟩, []) ∧
    Stmt.transformStatement env ("SHOW INDEXES FROM " ++ n)
      = (.ok ⟨"SHOW INDEXES FROM " ++ n, []⟩, []) := by
  obtain ⟨c, hc, hw, hq, hsemi⟩ := hbad
  have hne : n.data ≠ [] := List.ne_nil_of_mem hc
  have htrim1 : trimSpace ("DESCRIBE " ++ n) = "DESCRIBE " ++ n :=
    trimSpace_append_eq 'D' "ESCRIBE ".data rfl (by decide) hns hne
  have htrim2 : trimSpace ("SHOW INDEXES FROM " ++ n) = "SHOW INDEXES FROM " ++ n :=
    trimSpace_append_eq 'S' "HOW INDEXES FROM ".data rfl (by decide) hns hne
  have hdata1 : (("DESCRIBE " ++ n) : String).data
      = "DESCRIBE ".data ++ n.data := String.data_append _ _
  have hdata2 : (("SHOW INDEXES FROM " ++ n) : String).data
      = "SHOW INDEXES FROM ".data ++ n.data := String.data_append _ _
  have hnametail : Stmt.matchNameTail n.data = none :=
    matchNameTail_eq_none_of_bad hc hw hq hsemi
  have hd1 : Stmt.statementIsDescribe ("DESCRIBE " ++ n) = none := by
    unfold Stmt.statementIsDescribe
    rw [htrim1, hdata1, matchLitCI_append]
    exact hnametail
  have hsi2 : Stmt.statementIsShowIndexes ("SHOW INDEXES FROM " ++ n) = none := by
    unfold Stmt.statementIsShowIndexes
    rw [htrim2, hdata2, matchLitCI_append]
    exact hnametail
  have hsi1 : Stmt.statementIsShowIndexes ("DESCRIBE " ++ n) = none := by
    unfold Stmt.statementIsShowIndexes
    rw [htrim1, hdata1]
    rw [show (("DESCRIBE " : String).data ++ n.data)
      = 'D' :: ("ESCRIBE ".data ++ n.data) from rfl]
    rw [show ("SHOW INDEXES FROM " : String).data
      = 'S' :: "HOW INDEXES FROM ".data from rfl]
    rw [matchLitCI_none_of_head (by decide)]
  have hd2 : Stmt.statementIsDescribe ("SHOW INDEXES FROM " ++ n) = none := by
    unfold Stmt.statementIsDescribe
    rw [htrim2, hdata2]
    rw [show (("SHOW INDEXES FROM " : String).data ++ n.data)
      = 'S' :: ("HOW INDEXES FROM ".data ++ n.data) from rfl]
    rw [show ("DESCRIBE " : String).data = 'D' :: "ESCRIBE ".data from rfl]
    rw [matchLitCI_none_of_head (by decide)]
  have hst1 : Stmt.statementIsShowTables ("DESCRIBE " ++ n) = false := by
    unfold Stmt.statementIsShowTables
    rw [htrim1]
    simp only [hdata1, List.map_append, List.filter_append, decide_eq_true_eq]
    rw [show (("DESCRIBE " : String).data.map asciiUpper).filter
      (fun c => decide (c ≠ ';')) = ("DESCRIBE " : String).data from by decide]
    apply decide_eq_false
    intro hcontra
    have hlist := congrArg String.data hcontra
    simp only [String.data] at hlist
    have h0 := congrArg (fun l => l[0]?) hlist
    simp at h0
  have hst2 : Stmt.statementIsShowTables ("SHOW INDEXES FROM " ++ n) = false := by
    unfold Stmt.statementIsShowTables
    rw [htrim2]
    simp only [hdata2, List.map_append, List.filter_append, decide_eq_true_eq]
    rw [show (("SHOW INDEXES FROM " : String).data.map asciiUpper).filter
      (fun c => decide (c ≠ ';')) = ("SHOW INDEXES FROM " : String).data from by decide]
    apply decide_eq_false
    intro hcontra
    have hlist := congrArg String.data hcontra
    simp only [String.data] at hlist
    have hlen := congrArg List.length hlist
    simp only [List.length_append] at hlen
    rw [show ("SHOW INDEXES FROM " : String).data.length = 18 from by decide] at hlen
    rw [show ("SHOW TABLES" : String).data.length = 11 from by decide] at hlen
    omega
  constructor
  · simp [Stmt.transformStatement, hd1, hsi1, hst1]
  · simp [Stmt.transformStatement, hd2, hsi2, hst2]

/-- Witness for C10 at the schema-qualified name schema.table and an
arbitrary flavor. -/
theorem transform_ignores_nonword_names_witness :
    Stmt.transformStatement { flavor := Conn.PostgreSQL } ("DESCRIBE " ++ "schema.table")
      = (.ok ⟨"DESCRIBE " ++ "schema.table", []⟩, []) ∧
    Stmt.transformStatement { flavor := Conn.PostgreSQL }
        ("SHOW INDEXES FROM " ++ "schema.table")
      = (.ok ⟨"SHOW INDEXES FROM " ++ "schema.table", []⟩, []) :=
  transform_ignores_nonword_names { flavor := Conn.PostgreSQL } "schema.table"
    (by decide) (by decide)

/-- C3: for a statement whose execution succeeds, a nil rows iterator
yields a nil result together with a nil error, and an iterator with zero
rows yields a non-nil QueryResult with an empty rows sequence and a nil
error; neither case produces a non-nil error. -/
theorem query_zero_rows_success (env : DbQ.QueryEnv) (s : String)
    (hconn : env.connErr = none) :
    (env.exec (DbQ.transformStatement env.flavor s).1
        (DbQ.transformStatement env.flavor s).2 = .nilRows →
      DbQ.Query env s = (none, none)) ∧
    (∀ cols : List String,
      env.exec (DbQ.transformStatement env.flavor s).1
          (DbQ.transformStatement env.flavor s).2 = .rows (.ok cols) [] →
      DbQ.Query env s = (some { Rows := [], Columns := cols }, none)) := by
  constructor
  · intro hexec
    simp [DbQ.Query, hconn, hexec]
  · intro cols hexec
    simp [DbQ.Query, hconn, hexec, DbQ.scanRows]

/-- The driver environment used by the C3 witness: a statement that
yields no iterator. -/
def qenvNil : DbQ.QueryEnv :=
  { flavor := Conn.MySQL, exec := fun _ _ => .nilRows }

/-- The driver environment used by the C3 witness: an iterator with one
column and zero rows. -/
def qenvEmpty : DbQ.QueryEnv :=
  { flavor := Conn.MySQL, exec := fun _ _ => .rows (.ok ["a"]) [] }

/-- Witness for C3 at a DDL-like statement with no iterator and a select
with zero rows. -/
theorem query_zero_rows_success_witness :
    DbQ.Query qenvNil "CREATE TABLE t (id int)" = (none, none) ∧
    DbQ.Query qenvEmpty "SELECT 1"
      = (some { Rows := [], Columns := ["a"] }, none) :=
  ⟨(query_zero_rows_success qenvNil "CREATE TABLE t (id int)" rfl).1 rfl,
   (query_zero_rows_success qenvEmpty "SELECT 1" rfl).2 ["a"] rfl⟩

lemma mapLookup_mapRow_isSome (cols : List String) (r : List DbQ.Cell) (k : String)
    (hlen : r.length = cols.length) :
    (mapLookup (DbQ.mapRow cols r) k).isSome ↔ k ∈ cols := by
  unfold DbQ.mapRow
  rw [mapLookup_foldl_mapRow k (cols.zip r) []]
  rw [List.map_fst_zip cols r (by omega)]
  simp [mapLookup]

/-- C8: for every QueryResult returned by a successful Query, every row
has exactly the key set of the column names: a key is present in a row
map precisely when it is one of the columns. -/
theorem query_row_keys_match_columns (env : DbQ.QueryEnv) (s : String)
    (qr : DbQ.QueryResult) (h : DbQ.Query env s = (some qr, none)) :
    ∀ row ∈ qr.Rows, ∀ k : String,
      (mapLookup row k).isSome ↔ k ∈ qr.Columns := by
  unfold DbQ.Query at h
  split at h
  · simp at h
  · split at h
    · simp at h
    · simp at h
    · split at h
      · simp at h
      · split at h
        · simp at h
        · next rawRows hscan =>
          obtain ⟨heq, hlen⟩ := scanRows_ok hscan
          simp only [Prod.mk.injEq, Option.some.injEq] at h
          obtain ⟨hqr, -⟩ := h
          subst heq
          intro row hrow k
          rw [← hqr] at hrow ⊢
          simp only at hrow ⊢
          obtain ⟨r, hr, rfl⟩ := List.mem_map.mp hrow
          exact mapLookup_mapRow_isSome _ r k (hlen r hr)

/-- The driver environment used by the C8 witness: two columns and one
row holding one non-NULL and one NULL cell. -/
def qenvRows : DbQ.QueryEnv :=
  { flavor := Conn.MySQL,
    exec := fun _ _ => .rows (.ok ["a", "b"]) [[some "1", none]] }

/-- Witness for C8: the key set of the produced row is exactly the two
columns, and an unrelated key is absent. -/
theorem query_row_keys_match_columns_witness :
    ((mapLookup [("a", "1"), ("b", "NULL")] "a").isSome ↔ "a" ∈ ["a", "b"]) ∧
    ((mapLookup [("a", "1"), ("b", "NULL")] "zz").isSome ↔ "zz" ∈ ["a", "b"]) :=
  ⟨query_row_keys_match_columns qenvRows "SELECT 1"
      { Rows := [[("a", "1"), ("b", "NULL")]], Columns := ["a", "b"] } rfl
      [("a", "1"), ("b", "NULL")] (by simp) "a",
   query_row_keys_match_columns qenvRows "SELECT 1"
      { Rows := [[("a", "1"), ("b", "NULL")]], Columns := ["a", "b"] } rfl
      [("a", "1"), ("b", "NULL")] (by simp) "zz"⟩

/-- A pool handle used by concrete connection-manager states. -/
def dbW : Conn.SqlxDB := {}

/-- A connection handle used by concrete connection-manager states. -/
def connW : Conn.SqlxConn := {}

/-- The options value used by concrete connection-manager states. -/
def dsnW : Conn.DSNOptions := { Flavor := Conn.MySQL }

/-- C4 (code bug): Destroy is not idempotent and not panic-free. On a
manager that never acquired a connection (conn is the nil pointer, as
CreateConnectionManager leaves it), the promoted Close call dereferences
the nil sqlx.Conn pointer and panics; the same happens immediately after
a previous Destroy, which resets both handles to nil. Only a manager
currently holding both handles destroys cleanly to the no-connection
state. -/
theorem destroy_nil_conn_panics :
    Conn.ConnectionManager.Destroy (Conn.CreateConnectionManager dbW dsnW)
      = .nilPanic ∧
    Conn.ConnectionManager.Destroy
        { sqlDB := some dbW, conn := some connW, dsn := dsnW }
      = .ok { sqlDB := none, conn := none, dsn := dsnW } ∧
    Conn.ConnectionManager.Destroy { sqlDB := none, conn := none, dsn := dsnW }
      = .nilPanic :=
  ⟨rfl, rfl, rfl⟩

/-- C5: UseDatabase is fail-safe. It opens the new connection against the
options updated with the new database name; when that open fails, the
wrapped error is returned and the previously held pool handle and
connection are untouched (never a window with zero valid connections);
the previous handles are torn down only after the open succeeds. -/
theorem usedatabase_failsafe (env : Conn.CreateEnv) (cm : Conn.ConnectionManager)
    (name : String) :
    (∀ e, env.create { cm.dsn with DatabaseName := name } = .error e →
      Conn.ConnectionManager.UseDatabase env cm name
        = .ok (.error ("Failed to switch database\n" ++ e),
            { sqlDB := cm.sqlDB, conn := cm.conn,
              dsn := { cm.dsn with DatabaseName := name } })) ∧
    (∀ newDB c d, env.create { cm.dsn with DatabaseName := name } = .ok newDB →
      cm.conn = some c → cm.sqlDB = some d →
      Conn.ConnectionManager.UseDatabase env cm name
        = .ok (.ok (),
            { sqlDB := some newDB, conn := none,
              dsn := { cm.dsn with DatabaseName := name } })) := by
  constructor
  · intro e hfail
    simp [Conn.ConnectionManager.UseDatabase, hfail]
  · intro newDB c d hsucc hconn hdb
    simp [Conn.ConnectionManager.UseDatabase, hsucc,
      Conn.ConnectionManager.Destroy, hconn, hdb]

/-- The createDB oracle that always fails, used by the C5 witness. -/
def failEnv : Conn.CreateEnv := { create := fun _ => .error "boom" }

/-- The createDB oracle that always succeeds, used by the C5 witness. -/
def okEnv : Conn.CreateEnv := { create := fun _ => .ok dbW }

/-- The live manager used by the C5 witness. -/
def cmLive : Conn.ConnectionManager :=
  { sqlDB := some dbW, conn := some connW, dsn := dsnW }

/-- Witness for C5: a failed switch keeps the old handles; a successful
switch installs the new pool handle after teardown. -/
theorem usedatabase_failsafe_witness :
    Conn.ConnectionManager.UseDatabase failEnv cmLive "newdb"
      = .ok (.error ("Failed to switch database\n" ++ "boom"),
          { sqlDB := cmLive.sqlDB, conn := cmLive.conn,
            dsn := { cmLive.dsn with DatabaseName := "newdb" } }) ∧
    Conn.ConnectionManager.UseDatabase okEnv cmLive "newdb"
      = .ok (.ok (),
          { sqlDB := some dbW, conn := none,
            dsn := { cmLive.dsn with DatabaseName := "newdb" } }) :=
  ⟨(usedatabase_failsafe failEnv cmLive "newdb").1 "boom" rfl,
   (usedatabase_failsafe okEnv cmLive "newdb").2 dbW connW dbW rfl rfl rfl⟩
